import Mathlib

/-!
Shallow embedding of the causal-profiling engine from
`src/cmd/causalprof/causalprof.go`: the experiment-selection state machine,
adaptive pacing, progress accounting (package `causalprof`), and the offline
aggregator (`package main`).  Go machine integers (`int`, `int64`, `uint64`)
are modelled as `Int`/`Nat`; overflow is not exercised by any claim here, the
only machine-width operations that matter (`uint64` wraparound subtraction and
the `uint64 -> int64` conversion in `Progress.Stop`) are modelled explicitly.
Go's truncating integer division on `int`/`int64` is `Int.tdiv`.
-/

namespace Causalprof

/-- `const profilingHz = 1000` (causalprof.go line 219). -/
def profilingHz : Nat := 1000

/-- `const profilingPeriod = 1e9 * 1 / profilingHz` (line 220). -/
def profilingPeriod : Nat := 1000000000 * 1 / profilingHz

/-- `const delayPerPercent = profilingPeriod / 100` (line 221). -/
def delayPerPercent : Nat := profilingPeriod / 100

/-- `const percentileResolution = 10` (line 222). -/
def percentileResolution : Nat := 10

/-- `const progressPerExperiment = 100` (line 223), compared against the
`int` count in `profileWriter`. -/
def progressPerExperiment : Int := 100

/-- `const maxTrialsPerExperiment = 5` (line 224). -/
def maxTrialsPerExperiment : Nat := 5

/-- The per-location experiment state (`type experiment struct`, lines
242-246): `trials int`, `hasNull bool`, and `remaining []int`, which holds the
still-unconsumed part of a `rand.Perm(100/percentileResolution)` result
(values in `0..9`). -/
structure Experiment where
  trials : Nat
  hasNull : Bool
  remaining : List Nat
deriving Repr, DecidableEq

/-- The zero value a fresh map entry starts from (`new(experiment)`,
line 259). -/
def Experiment.init : Experiment := ⟨0, false, []⟩

/-- The tail of `selectExperiment` after the optional refresh block (lines
312-318).  Popping `expinfo.remaining[0]` from an empty slice is a Go runtime
panic, modelled as `none`; `coin` stands for `rand.Intn(2) == 1`. -/
def selectBody (e : Experiment) (coin : Bool) : Option (Int × Experiment) :=
  if ¬e.hasNull ∧ (e.remaining = [] ∨ coin = true) then
    some (0, { e with hasNull := true })
  else
    match e.remaining with
    | [] => none
    | x :: rest => some ((x : Int) + 1, { e with remaining := rest })

/-- `selectExperiment` (lines 304-319).  `perm` stands for the fresh
`rand.Perm(100/percentileResolution)` drawn when the cycle is refreshed, and
`coin` for `rand.Intn(2) == 1`. -/
def selectExperiment (e : Experiment) (perm : List Nat) (coin : Bool) :
    Option (Int × Experiment) :=
  if e.hasNull = true ∧ e.remaining = [] then
    if e.trials = maxTrialsPerExperiment then
      some (-1, e)
    else
      selectBody { e with trials := e.trials + 1, remaining := perm } coin
  else
    selectBody e coin

/-- One randomness draw per `selectExperiment` call: the permutation used if
that call refreshes the cycle, and the coin flip. -/
abbrev Oracle := List Nat × Bool

/-- Iterated calls of `selectExperiment` on the same location's state, one
oracle entry per call; a Go panic anywhere yields `none`. -/
def runCalls : Experiment → List Oracle → Option (List Int × Experiment)
  | e, [] => some ([], e)
  | e, (perm, coin) :: os =>
    match selectExperiment e perm coin with
    | none => none
    | some (r, e') =>
      match runCalls e' os with
      | none => none
      | some (rs, ef) => some (r :: rs, ef)

/-- `delaypersample := uint64(exp) * (percentileResolution * delayPerPercent)`
(line 267), for the non-negative `exp` values that reach it. -/
def delayPerSampleOf (exp : Nat) : Nat :=
  exp * (percentileResolution * delayPerPercent)

/-- The delay percentile the coordinator reports for a selection `exp`:
`delaypersample / delayPerPercent` (lines 286 and 289). -/
def speedupPercent (exp : Nat) : Nat :=
  delayPerSampleOf exp / delayPerPercent

/-- One parsed experiment record (`type sample struct`, causalprof.go lines
89-96): `pc uint64`, `speedup int`, `merged int64`, `nsPerOp int64`,
`delaysamples int64`, `allsamples int64`. -/
structure Sample where
  pc : Nat
  speedup : Int
  merged : Int
  nsPerOp : Int
  delaysamples : Int
  allsamples : Int
deriving Repr, DecidableEq

/-- The field updates of `(*sample).merge` (lines 102-105): `nsPerOp` becomes
the count-weighted mean under Go's truncating `int64` division, computed with
the pre-update `merged` counts, and the three counts are summed. -/
def Sample.mergeVal (s o : Sample) : Sample :=
  { pc := s.pc
    speedup := s.speedup
    merged := s.merged + o.merged
    nsPerOp := Int.tdiv (s.nsPerOp * s.merged + o.nsPerOp * o.merged)
      (s.merged + o.merged)
    delaysamples := s.delaysamples + o.delaysamples
    allsamples := s.allsamples + o.allsamples }

/-- `(*sample).merge` (lines 98-106); the `panic("different pcs or speedups")`
guard is modelled as `none`. -/
def Sample.merge (s o : Sample) : Option Sample :=
  if s.pc ≠ o.pc ∨ s.speedup ≠ o.speedup then none
  else some (s.mergeVal o)

/-- Insertion into a speedup-sorted list. -/
def insertBySpeedup (s : Sample) : List Sample → List Sample
  | [] => [s]
  | t :: ts =>
    if s.speedup ≤ t.speedup then s :: t :: ts else t :: insertBySpeedup s ts

/-- Models `sort.Sort(bySpeedup(i))` (lines 36-38 with 108-112): the group is
reordered ascending by `speedup`.  Go's sort is unstable, so only the
`speedup` order is specified; insertion sort is one permissible outcome (and
a stable one). -/
def sortBySpeedup : List Sample → List Sample
  | [] => []
  | s :: ss => insertBySpeedup s (sortBySpeedup ss)

/-- The merging loop body of `main` (lines 41-49): walk the sorted group,
folding each record into the previous one while the `speedup` matches.  A
`merge` panic (mixed `pc`s in one group) propagates as `none`. -/
def mergeAdjacent (last : Sample) : List Sample → Option (List Sample)
  | [] => some [last]
  | s :: rest =>
    if last.speedup = s.speedup then
      match last.merge s with
      | none => none
      | some m => mergeAdjacent m rest
    else
      match mergeAdjacent s rest with
      | none => none
      | some ms => some (last :: ms)

/-- `merged := []*sample{i[0]}` plus the loop (lines 40-51) for one
location's group; Go's `i[0]` on an empty slice is a panic, modelled as
`none` (groups built by the indexing loop are never empty). -/
def mergeDuplicates : List Sample → Option (List Sample)
  | [] => none
  | s :: rest => mergeAdjacent s rest

/-- One location's group after the sort and merge passes of `main`. -/
def processLocation (l : List Sample) : Option (List Sample) :=
  mergeDuplicates (sortBySpeedup l)

/-- The report filter of `main` (lines 62-66): a location is skipped
("not enough baseline data") when `i[0].speedup != 0 || len(i) < 5` on its
merged group. -/
def keptLocation (l : List Sample) : Option Bool :=
  match processLocation l with
  | none => none
  | some [] => none
  | some (s0 :: rest) =>
    if s0.speedup ≠ 0 ∨ (s0 :: rest).length < 5 then some false
    else some true

/-- `percent := float64(s.nsPerOp-nullexp.nsPerOp) / float64(nullexp.nsPerOp);
percent *= 100` (lines 77-78), with the `float64` arithmetic modelled exactly
over `ℚ`. -/
def percentChange (nullexp s : Sample) : ℚ :=
  (((s.nsPerOp - nullexp.nsPerOp : Int) : ℚ) / ((nullexp.nsPerOp : Int) : ℚ))
    * 100

/-- `percentsamples := (float64(s.speedup)) * (float64(s.delaysamples) /
float64(s.allsamples))` (line 79), with the `float64` arithmetic modelled
exactly over `ℚ`. -/
def contribution (s : Sample) : ℚ :=
  ((s.speedup : Int) : ℚ) * (((s.delaysamples : Int) : ℚ)
    / ((s.allsamples : Int) : ℚ))

/-- The adaptive-pacing step of `profileWriter` (lines 291-299): the new
`profMultiple` computed from the old one and the observed interval count
`cnt`; `profMultiple` is a `time.Duration` (`int64`) and `cnt` an `int`, so
both divisions truncate. -/
def pacingStep (profMultiple cnt : Int) : Int :=
  if progressPerExperiment > cnt then
    if progressPerExperiment > 2 * cnt then profMultiple * 2 else profMultiple
  else
    if progressPerExperiment < Int.tdiv cnt 2 then Int.tdiv profMultiple 2
    else profMultiple

/-- Wraparound subtraction on Go's `uint64`. -/
def u64sub (a b : Nat) : Nat :=
  (a % 2 ^ 64 + (2 ^ 64 - b % 2 ^ 64)) % 2 ^ 64

/-- Go's conversion of a `uint64` value to `int64` (`time.Duration(d)` on
line 364): reinterpretation of the low 64 bits. -/
def toInt64 (n : Nat) : Int :=
  if n % 2 ^ 64 < 2 ^ 63 then ((n % 2 ^ 64 : Nat) : Int)
  else ((n % 2 ^ 64 : Nat) : Int) - 2 ^ 64

/-- The shared progress accumulator (`progress`, `progresstime`,
`experimentNum`, lines 327-329): interval count, summed net interval time in
nanoseconds, and the experiment generation counter. -/
structure ProgressState where
  progress : Int
  progresstime : Int
  experimentNum : Nat
deriving Repr, DecidableEq

/-- A progress token (`type Progress struct`, lines 340-344).  `startTime =
none` models the zero `time.Time` of the no-op token `Progress{}`. -/
structure Progress where
  startTime : Option Int
  startDelay : Nat
  experimentNum : Nat
deriving Repr, DecidableEq

/-- `StartProgress` (lines 346-356): when profiling is off it hands back the
no-op token `Progress{}`; otherwise it captures the current wall time, the
injected-delay total, and the experiment generation. -/
def startProgress (profiling : Bool) (now : Int) (curDelay : Nat)
    (gen : Nat) : Progress :=
  if profiling = false then ⟨none, 0, 0⟩
  else ⟨some now, curDelay, gen⟩

/-- `(*Progress).Stop` (lines 358-372): a no-op token returns immediately;
otherwise net time is elapsed wall time minus the injected-delay delta
(`uint64` subtraction reinterpreted as a `time.Duration`), and the interval
is accumulated only if the generation still matches. -/
def Progress.stop (p : Progress) (now : Int) (curDelay : Nat)
    (st : ProgressState) : ProgressState :=
  match p.startTime with
  | none => st
  | some t0 =>
    let t := (now - t0) - toInt64 (u64sub curDelay p.startDelay)
    if st.experimentNum ≠ p.experimentNum then st
    else { st with progresstime := st.progresstime + t,
                   progress := st.progress + 1 }

/-- `compareprogress` (lines 374-386): result pair `(prog, cnt)` and the
accumulator state it leaves behind.  With no completed intervals it returns
`(-1, 0)` untouched; otherwise it reports the truncated mean net time per
interval, zeroes the accumulator, and bumps the generation. -/
def compareprogress (st : ProgressState) : (Int × Int) × ProgressState :=
  if st.progress = 0 then ((-1, 0), st)
  else
    ((Int.tdiv st.progresstime st.progress, st.progress),
     { progress := 0, progresstime := 0,
       experimentNum := st.experimentNum + 1 })

/-- The coordinator's reading of `compareprogress` (lines 278-281): when
`diff == -1` the window is discarded — nothing is recorded — and otherwise
the pair is recorded. -/
def recordedResult (st : ProgressState) : Option (Int × Int) :=
  if (compareprogress st).1.1 = -1 then none else some (compareprogress st).1

/-- `unicode.IsSpace` on the ASCII whitespace `strings.Fields` splits on
(profile lines contain no exotic Unicode spaces). -/
def isSpaceChar (c : Char) : Bool :=
  c = ' ' ∨ c = '\t' ∨ c = '\n' ∨ c = '\x0b' ∨ c = '\x0c' ∨ c = '\r'

/-- Accumulator pass behind `fieldsOf`. -/
def fieldsAux : List Char → List Char → List (List Char)
  | [], acc => if acc = [] then [] else [acc.reverse]
  | c :: cs, acc =>
    if isSpaceChar c then
      if acc = [] then fieldsAux cs [] else acc.reverse :: fieldsAux cs []
    else fieldsAux cs (c :: acc)

/-- `strings.Fields(s)` (line 127): the maximal whitespace-free substrings
of the line, in order, with a line modelled as its character sequence. -/
def fieldsOf (s : List Char) : List (List Char) :=
  fieldsAux s []

/-- Decimal digit value of a character, if any. -/
def digitVal (c : Char) : Option Nat :=
  if '0' ≤ c ∧ c ≤ '9' then some (c.toNat - '0'.toNat) else none

/-- Hexadecimal digit value of a character, if any. -/
def hexDigitVal (c : Char) : Option Nat :=
  if '0' ≤ c ∧ c ≤ '9' then some (c.toNat - '0'.toNat)
  else if 'a' ≤ c ∧ c ≤ 'f' then some (c.toNat - 'a'.toNat + 10)
  else if 'A' ≤ c ∧ c ≤ 'F' then some (c.toNat - 'A'.toNat + 10)
  else none

/-- Digit-at-a-time accumulation of an unsigned number; any non-digit is a
parse error. -/
def parseDigits (dv : Char → Option Nat) (b : Nat) :
    List Char → Nat → Option Nat
  | [], acc => some acc
  | c :: cs, acc =>
    match dv c with
    | none => none
    | some d => parseDigits dv b cs (acc * b + d)

/-- Modelled from the spec: the profile-line address field is
`address(hex-or-decimal)`, parsed by `strconv.ParseUint(fields[0], 0, 64)`
(line 131), whose implementation lives outside this repository's sources
here; a `0x`/`0X` prefix selects hexadecimal, otherwise decimal. -/
def parseUintAddr (s : List Char) : Option Nat :=
  match s with
  | [] => none
  | '0' :: 'x' :: cs => if cs = [] then none else parseDigits hexDigitVal 16 cs 0
  | '0' :: 'X' :: cs => if cs = [] then none else parseDigits hexDigitVal 16 cs 0
  | cs => parseDigits digitVal 10 cs 0

/-- Modelled from the spec: the remaining four fields are signed decimal
integers, parsed by `strconv.Atoi` / `strconv.ParseInt(..., 10, 64)` (lines
135-147), whose implementations live outside this repository's sources
here; an optional single leading sign, then decimal digits. -/
def parseIntDec (s : List Char) : Option Int :=
  match s with
  | [] => none
  | '-' :: cs =>
    if cs = [] then none
    else (parseDigits digitVal 10 cs 0).map (fun n => -(n : Int))
  | '+' :: cs =>
    if cs = [] then none
    else (parseDigits digitVal 10 cs 0).map (fun n => (n : Int))
  | cs => (parseDigits digitVal 10 cs 0).map (fun n => (n : Int))

/-- The scanner loop of `readProfFile` (lines 122-160), over the file's lines
(each modelled as its character sequence): skip empty and `#` lines, fail the
whole parse on a line whose field count is not 5 or whose fields do not
parse, and otherwise accumulate a sample with `merged = 1`. -/
def readProfFile : List (List Char) → Option (List Sample)
  | [] => some []
  | s :: rest =>
    if s.length < 1 ∨ s.head? = some '#' then readProfFile rest
    else
      let fs := fieldsOf s
      if fs.length ≠ 5 then none
      else
        match parseUintAddr (fs.getD 0 []), parseIntDec (fs.getD 1 []),
            parseIntDec (fs.getD 2 []), parseIntDec (fs.getD 3 []),
            parseIntDec (fs.getD 4 []) with
        | some pc, some speedup, some nsPerOp, some ds, some alls =>
          (readProfFile rest).map
            (fun tl => ⟨pc, speedup, 1, nsPerOp, ds, alls⟩ :: tl)
        | _, _, _, _, _ => none

end Causalprof

namespace Causalprof

theorem speedupPercent_eq (e : Nat) :
    speedupPercent e = e * percentileResolution := by
  show e * (percentileResolution * delayPerPercent) / delayPerPercent
      = e * percentileResolution
  rw [← Nat.mul_assoc]
  exact Nat.mul_div_cancel _ (by decide : 0 < delayPerPercent)

/-- Consuming a loaded cycle: from a state with `hasNull` set and `remaining
= l`, the next `l.length` calls pop `l` in order, returning `x + 1` each
time, and leave `trials` untouched. -/
theorem runCalls_pops (t : Nat) (l : List Nat) (os : List Oracle)
    (hos : os.length = l.length) :
    runCalls ⟨t, true, l⟩ os
      = some (l.map (fun k : Nat => (k : Int) + 1), ⟨t, true, []⟩) := by
  induction l generalizing os with
  | nil =>
    have : os = [] := List.length_eq_zero.mp hos
    subst this
    rfl
  | cons x xs ih =>
    match os with
    | [] => simp at hos
    | (p, c) :: os' =>
      have hsel : selectExperiment ⟨t, true, x :: xs⟩ p c
          = some ((x : Int) + 1, ⟨t, true, xs⟩) := by
        simp [selectExperiment, selectBody]
      have hos' : os'.length = xs.length := by
        simpa using hos
      simp [runCalls, hsel, ih os' hos']

/-- C1 (amended): once a cycle is loaded with a permutation of
`0..100/percentileResolution - 1`, `selectExperiment` pops it without
repetition, so within one permutation cycle no non-zero delay percentile
repeats, and before any repeat or stop sentinel every percentile in
`{10, 20, ..., 100}` — ten values, including 100 — is returned exactly once,
and no value outside that set ever appears. -/
theorem selectExperiment_cycle_perm (t : Nat) (l : List Nat) (os : List Oracle)
    (hl : l.Perm (List.range (100 / percentileResolution)))
    (hos : os.length = l.length) :
    ∃ outs : List Int,
      runCalls ⟨t, true, l⟩ os = some (outs, ⟨t, true, []⟩) ∧
      outs.Nodup ∧
      (outs.map (fun r => speedupPercent r.toNat)).Perm
        [10, 20, 30, 40, 50, 60, 70, 80, 90, 100] := by
  refine ⟨l.map (fun k : Nat => (k : Int) + 1), runCalls_pops t l os hos, ?_, ?_⟩
  · have hnd : l.Nodup := hl.nodup_iff.mpr (List.nodup_range _)
    exact hnd.map (fun a b h => by omega)
  · rw [List.map_map]
    have h1 := hl.map (fun k : Nat => speedupPercent (((k : Int) + 1).toNat))
    have h2 : (List.range (100 / percentileResolution)).map
        (fun k : Nat => speedupPercent (((k : Int) + 1).toNat))
        = [10, 20, 30, 40, 50, 60, 70, 80, 90, 100] := by decide
    exact h2 ▸ h1

theorem selectExperiment_cycle_perm_witness :
    ∃ outs : List Int,
      runCalls ⟨1, true, List.range 10⟩ (List.replicate 10 ([], false))
        = some (outs, ⟨1, true, []⟩) ∧
      outs.Nodup ∧
      (outs.map (fun r => speedupPercent r.toNat)).Perm
        [10, 20, 30, 40, 50, 60, 70, 80, 90, 100] :=
  selectExperiment_cycle_perm 1 (List.range 10) (List.replicate 10 ([], false))
    (by decide) (by decide)

/-- C1 (counterexample): starting a location from its initial state, a run
through the first cycle — here with the identity permutation drawn — returns
the selection `10`, whose delay percentile is `100`, which lies outside
`{10, 20, ..., 90}`. -/
theorem selectExperiment_returns_hundred :
    runCalls Experiment.init
        (([], false) :: (List.range 10, false) :: List.replicate 9 ([], false))
      = some ([0, 1, 2, 3, 4, 5, 6, 7, 8, 9, 10], ⟨1, true, []⟩)
    ∧ speedupPercent ((10 : Int)).toNat = 100
    ∧ (100 : Nat) ∉ [10, 20, 30, 40, 50, 60, 70, 80, 90] := by decide

/-- C2 (amended): the zero-delay null trial happens exactly once per
location, as the very first selection: from the initial state the first call
returns 0 and sets `hasNull`, and `hasNull` is never cleared again, so once
it is set no later call — in any later cycle — ever returns 0. -/
theorem nullTrial_only_first (p : List Nat) (c : Bool) :
    selectExperiment Experiment.init p c = some (0, ⟨0, true, []⟩) ∧
    ∀ (e : Experiment) (p' : List Nat) (c' : Bool) (r : Int) (e' : Experiment),
      e.hasNull = true → selectExperiment e p' c' = some (r, e') →
      r ≠ 0 ∧ e'.hasNull = true := by
  constructor
  · simp [selectExperiment, Experiment.init, selectBody]
  · intro e p' c' r e' hn hsel
    unfold selectExperiment at hsel
    split at hsel
    · split at hsel
      · simp only [Option.some.injEq, Prod.mk.injEq] at hsel
        obtain ⟨hr, he⟩ := hsel
        subst hr; subst he
        exact ⟨by decide, hn⟩
      · simp only [selectBody, hn] at hsel
        match hp : p' with
        | [] => simp [hp] at hsel
        | x :: rest =>
          simp only [hp, not_true_eq_false, false_and, if_false] at hsel
          simp only [Option.some.injEq, Prod.mk.injEq] at hsel
          obtain ⟨hr, he⟩ := hsel
          subst hr; subst he
          exact ⟨by positivity, rfl⟩
    · simp only [selectBody, hn] at hsel
      match hp : e.remaining with
      | [] => simp [hp] at hsel
      | x :: rest =>
        simp only [hp, not_true_eq_false, false_and, if_false] at hsel
        simp only [Option.some.injEq, Prod.mk.injEq] at hsel
        obtain ⟨hr, he⟩ := hsel
        subst hr; subst he
        exact ⟨by positivity, rfl⟩

theorem nullTrial_only_first_witness :
    selectExperiment Experiment.init [0, 1] true = some (0, ⟨0, true, []⟩) ∧
    ((3 : Int) ≠ 0 ∧ (⟨1, true, [4]⟩ : Experiment).hasNull = true) :=
  ⟨(nullTrial_only_first [0, 1] true).1,
   (nullTrial_only_first [0, 1] true).2 ⟨1, true, [2, 4]⟩ [] false 3 ⟨1, true, [4]⟩
     rfl (by decide)⟩

/-- C2 (counterexample): a run from the initial state through two complete
cycles (final state has `trials = 2` and an exhausted queue) contains the
null trial only once, so the second cycle contains no null trial. -/
theorem secondCycle_has_no_null :
    runCalls Experiment.init
        (([], false) :: (List.range 10, false) :: (List.replicate 9 ([], false)
          ++ ((List.range 10, false) :: List.replicate 9 ([], false))))
      = some ([0, 1, 2, 3, 4, 5, 6, 7, 8, 9, 10,
               1, 2, 3, 4, 5, 6, 7, 8, 9, 10], ⟨2, true, []⟩)
    ∧ List.count 0 [(0 : Int), 1, 2, 3, 4, 5, 6, 7, 8, 9, 10,
               1, 2, 3, 4, 5, 6, 7, 8, 9, 10] = 1 := by decide

/-- C7: a location whose experiment state has completed
`maxTrialsPerExperiment` cycles (`trials = 5`, null trial done, queue
exhausted) gets the stop sentinel `-1` from every subsequent call, with the
state left unchanged, so it never runs another trial. -/
theorem selectExperiment_retired (e : Experiment) (os : List Oracle)
    (h1 : e.trials = maxTrialsPerExperiment) (h2 : e.hasNull = true)
    (h3 : e.remaining = []) :
    runCalls e os = some (List.replicate os.length (-1), e) := by
  induction os with
  | nil => rfl
  | cons o os ih =>
    obtain ⟨p, c⟩ := o
    have hsel : selectExperiment e p c = some (-1, e) := by
      simp [selectExperiment, h1, h2, h3]
    simp [runCalls, hsel, ih, List.replicate_succ]

theorem selectExperiment_retired_witness :
    runCalls ⟨5, true, []⟩ [(List.range 10, true), ([], false), ([3], true)]
      = some ([-1, -1, -1], ⟨5, true, []⟩) := by
  have h := selectExperiment_retired ⟨5, true, []⟩
    [(List.range 10, true), ([], false), ([3], true)] rfl rfl rfl
  simpa using h

/-- C3: merging two samples with equal location and equal delay percentile
sets `nsPerOp` to the count-weighted mean (under Go's truncating `int64`
division), `merged` to the sum of the counts, and the two sample counters to
their sums. -/
theorem sample_merge_weighted (s o : Sample) (hpc : s.pc = o.pc)
    (hsp : s.speedup = o.speedup) :
    s.merge o = some
      { pc := s.pc
        speedup := s.speedup
        merged := s.merged + o.merged
        nsPerOp := Int.tdiv (s.nsPerOp * s.merged + o.nsPerOp * o.merged)
          (s.merged + o.merged)
        delaysamples := s.delaysamples + o.delaysamples
        allsamples := s.allsamples + o.allsamples } := by
  simp [Sample.merge, Sample.mergeVal, hpc, hsp]

theorem sample_merge_weighted_witness :
    (⟨16, 30, 1, 100, 5, 50⟩ : Sample).merge ⟨16, 30, 3, 300, 7, 60⟩
      = some ⟨16, 30, 4, 250, 12, 110⟩ := by
  rw [sample_merge_weighted ⟨16, 30, 1, 100, 5, 50⟩ ⟨16, 30, 3, 300, 7, 60⟩
    rfl rfl]
  decide

/-- C4 (amended): the aggregator takes the first entry of a location's
speedup-sorted, merged group as the baseline and keeps the location exactly
when that entry's delay percentile is 0 and the merged group holds at least 5
entries (distinct delay percentiles) — the threshold is this fixed count of
merged entries, not a total sample count; in particular any location with a
single record is dropped. -/
theorem keptLocation_iff :
    (∀ (l : List Sample) (s0 : Sample) (rest : List Sample),
      processLocation l = some (s0 :: rest) →
      (keptLocation l = some true ↔
        (s0.speedup = 0 ∧ 5 ≤ (s0 :: rest).length))) ∧
    (∀ s : Sample, keptLocation [s] = some false) := by
  constructor
  · intro l s0 rest h
    simp only [keptLocation, h]
    split_ifs with hcond
    · simp only [Option.some.injEq, Bool.false_eq_true, false_iff, not_and]
      intro h1 h2
      rcases hcond with hc | hc
      · exact hc h1
      · omega
    · push_neg at hcond
      simp only [Option.some.injEq, true_iff]
      exact ⟨hcond.1, by omega⟩
  · intro s
    simp [keptLocation, processLocation, sortBySpeedup, insertBySpeedup,
      mergeDuplicates, mergeAdjacent]

theorem keptLocation_iff_witness :
    (keptLocation [(⟨16, 0, 1, 100, 0, 1000⟩ : Sample)] = some true ↔
      ((⟨16, 0, 1, 100, 0, 1000⟩ : Sample).speedup = 0 ∧
        5 ≤ [(⟨16, 0, 1, 100, 0, 1000⟩ : Sample)].length)) ∧
    keptLocation [(⟨16, 0, 1, 100, 0, 1000⟩ : Sample)] = some false :=
  ⟨keptLocation_iff.1 [⟨16, 0, 1, 100, 0, 1000⟩] ⟨16, 0, 1, 100, 0, 1000⟩ []
     (by decide),
   keptLocation_iff.2 ⟨16, 0, 1, 100, 0, 1000⟩⟩

/-- C4 (counterexample): a location with six records — six trials, 6000
accumulated samples, a zero-delay baseline present, far above any minimum
confidence count of 2 — is still dropped, because after merging its group has
a single entry and the code requires at least 5 merged entries; so the drop
condition is not "total sample count below the minimum confidence count". -/
theorem keptLocation_counterexample :
    keptLocation (List.replicate 6 (⟨16, 0, 1, 100, 0, 1000⟩ : Sample))
        = some false ∧
    processLocation (List.replicate 6 (⟨16, 0, 1, 100, 0, 1000⟩ : Sample))
        = some [⟨16, 0, 6, 100, 0, 6000⟩] ∧
    ((List.replicate 6 (⟨16, 0, 1, 100, 0, 1000⟩ : Sample)).map
        Sample.merged).sum = 6 := by decide

/-- C9: on the spec's scenario — two baseline records `(0x10, 0, 100, 0,
1000)` and one 30% trial `(0x10, 30, 70, 300, 1000)` — the sort-and-merge
pass yields the merged baseline with `nsPerOp = 100` and `merged = 2`, and
the report formulas give `percentChange = (70 - 100)/100 * 100 = -30` and
`contribution = 30 * (300/1000) = 9`. -/
theorem report_scenario :
    processLocation [⟨16, 0, 1, 100, 0, 1000⟩, ⟨16, 0, 1, 100, 0, 1000⟩,
        ⟨16, 30, 1, 70, 300, 1000⟩]
      = some [⟨16, 0, 2, 100, 0, 2000⟩, ⟨16, 30, 1, 70, 300, 1000⟩] ∧
    percentChange ⟨16, 0, 2, 100, 0, 2000⟩ ⟨16, 30, 1, 70, 300, 1000⟩ = -30 ∧
    contribution ⟨16, 30, 1, 70, 300, 1000⟩ = 9 := by
  refine ⟨by decide, ?_, ?_⟩
  · norm_num [percentChange]
  · norm_num [contribution]

theorem tdiv_two_ofNat (n : Nat) :
    Int.tdiv (n : Int) 2 = ((n / 2 : Nat) : Int) := rfl

/-- C5 (amended): the window multiplier is doubled exactly when the observed
interval count is below half the target of 100 (`cnt < 50`), halved exactly
when the truncated half-count exceeds the target (`cnt / 2 > 100`, i.e.
`cnt ≥ 202`), and left unchanged for every count in `50..201` — including
counts `201 > 2 * 100` that are more than double the target. -/
theorem pacingStep_cases (m cnt : Int) :
    (cnt < 50 → pacingStep m cnt = m * 2) ∧
    (50 ≤ cnt → cnt ≤ 201 → pacingStep m cnt = m) ∧
    (202 ≤ cnt → pacingStep m cnt = Int.tdiv m 2) := by
  refine ⟨?_, ?_, ?_⟩
  · intro h
    have h1 : progressPerExperiment > cnt := by
      unfold progressPerExperiment; omega
    have h2 : progressPerExperiment > 2 * cnt := by
      unfold progressPerExperiment; omega
    unfold pacingStep
    rw [if_pos h1, if_pos h2]
  · intro h1 h2
    obtain ⟨n, rfl⟩ : ∃ k : Nat, cnt = (k : Int) :=
      ⟨cnt.toNat, (Int.toNat_of_nonneg (by omega)).symm⟩
    unfold pacingStep progressPerExperiment
    rw [tdiv_two_ofNat]
    split_ifs <;> first | rfl | omega
  · intro h
    obtain ⟨n, rfl⟩ : ∃ k : Nat, cnt = (k : Int) :=
      ⟨cnt.toNat, (Int.toNat_of_nonneg (by omega)).symm⟩
    unfold pacingStep progressPerExperiment
    rw [tdiv_two_ofNat]
    split_ifs <;> first | rfl | omega

theorem pacingStep_cases_witness :
    pacingStep 200 10 = 400 ∧ pacingStep 200 100 = 200 ∧
    pacingStep 200 250 = 100 := by
  refine ⟨(pacingStep_cases 200 10).1 (by decide),
    (pacingStep_cases 200 100).2.1 (by decide) (by decide), ?_⟩
  rw [(pacingStep_cases 200 250).2.2 (by decide)]
  decide

/-- C5 (counterexample): an observed interval count of 201 is more than
double the target of 100, yet the multiplier is left unchanged (the code
halves only when the truncated `cnt/2` strictly exceeds 100, i.e. from
`cnt = 202` on). -/
theorem pacing_not_halved_at_201 :
    (201 : Int) > 2 * progressPerExperiment ∧
    pacingStep 200 201 = 200 := by decide

/-- C6: a progress interval contributes nothing to the accumulator when its
token is the no-op token (profiling was off at `StartProgress`) or when the
generation observed at `Stop` differs from the one the token captured: `Stop`
returns the state unchanged. -/
theorem progressStop_discards (profiling : Bool) (t0 : Int) (d0 : Nat)
    (g : Nat) (st : ProgressState) (now : Int) (cur : Nat)
    (h : profiling = false ∨
      st.experimentNum ≠ (startProgress profiling t0 d0 g).experimentNum) :
    (startProgress profiling t0 d0 g).stop now cur st = st := by
  cases profiling
  · simp [startProgress, Progress.stop]
  · rcases h with h | h
    · simp at h
    · simp only [startProgress, if_neg (by simp : ¬(true = false))] at h ⊢
      simp [Progress.stop, h]

theorem progressStop_discards_witness :
    (startProgress true 100 5 1).stop 150 9 ⟨3, 7, 2⟩ = ⟨3, 7, 2⟩ :=
  progressStop_discards true 100 5 1 ⟨3, 7, 2⟩ 150 9 (Or.inr (by decide))

/-- C8: `readProfFile` skips empty lines and lines starting with `#`, and if
any other line of the file has a whitespace-separated field count different
from 5, the whole parse returns an error and no sample list — no partial
result, whatever the other lines contain. -/
theorem readProfFile_skips_and_aborts :
    (∀ (s : List Char) (rest : List (List Char)),
      (s.length < 1 ∨ s.head? = some '#') →
      readProfFile (s :: rest) = readProfFile rest) ∧
    (∀ (ls : List (List Char)) (s : List Char),
      s ∈ ls → ¬(s.length < 1 ∨ s.head? = some '#') →
      (fieldsOf s).length ≠ 5 → readProfFile ls = none) := by
  constructor
  · intro s rest h
    simp only [readProfFile]
    rw [if_pos h]
  · intro ls
    induction ls with
    | nil => intro s h; simp at h
    | cons l rest ih =>
      intro s hmem hskip hflds
      rcases List.mem_cons.mp hmem with rfl | hmem'
      · simp only [readProfFile]
        rw [if_neg hskip]
        simp only [if_pos hflds]
      · have hrec : readProfFile rest = none := ih s hmem' hskip hflds
        simp only [readProfFile]
        split_ifs with h1 h2
        · exact hrec
        · rfl
        · split
          · rw [hrec]; rfl
          · rfl

theorem readProfFile_skips_and_aborts_witness :
    readProfFile [['#', 'a'], ['1', ' ', '2']]
        = readProfFile [['1', ' ', '2']] ∧
    readProfFile [['1', ' ', '2']] = none :=
  ⟨readProfFile_skips_and_aborts.1 ['#', 'a'] [['1', ' ', '2']] (by decide),
   readProfFile_skips_and_aborts.2 [['1', ' ', '2']] ['1', ' ', '2']
     (by decide) (by decide) (by decide)⟩

/-- C10: the coordinator records nothing when `compareprogress` reports `-1`,
which happens both for a zero-interval window and for a window whose
truncated average net time per interval is exactly `-1` — the two are
indistinguishable to the caller — while any other average, negative ones
included, is recorded as is; and net interval time can indeed go negative,
since `Stop` subtracts the injected-delay delta from the elapsed time. -/
theorem compareprogress_minus_one_discarded :
    (∀ st : ProgressState, st.progress = 0 → recordedResult st = none) ∧
    (∀ st : ProgressState, st.progress ≠ 0 →
      Int.tdiv st.progresstime st.progress = -1 → recordedResult st = none) ∧
    (∀ st : ProgressState, st.progress ≠ 0 →
      Int.tdiv st.progresstime st.progress ≠ -1 →
      recordedResult st
        = some (Int.tdiv st.progresstime st.progress, st.progress)) ∧
    ((startProgress true 0 0 1).stop 5 8 ⟨0, 0, 1⟩).progresstime < 0 := by
  refine ⟨?_, ?_, ?_, by decide⟩
  · intro st h
    simp [recordedResult, compareprogress, h]
  · intro st h1 h2
    simp [recordedResult, compareprogress, h1, h2]
  · intro st h1 h2
    simp [recordedResult, compareprogress, h1, h2]

theorem compareprogress_minus_one_discarded_witness :
    recordedResult ⟨0, 0, 7⟩ = none ∧
    recordedResult ⟨2, -3, 7⟩ = none ∧
    recordedResult ⟨2, -4, 7⟩ = some (-2, 2) := by
  refine ⟨compareprogress_minus_one_discarded.1 ⟨0, 0, 7⟩ rfl,
    compareprogress_minus_one_discarded.2.1 ⟨2, -3, 7⟩ (by decide) (by decide),
    ?_⟩
  rw [compareprogress_minus_one_discarded.2.2.1 ⟨2, -4, 7⟩ (by decide)
    (by decide)]
  decide

end Causalprof
